import Mathlib

/-!
Verification of the order-service core of `v2/rest/orders.go` from the
`bitfinex-api-go` repository.

The Go service builds JSON request bodies and endpoint paths, hands them to a
request factory plus synchronous executor, and decodes the raw responses with
the domain codecs.  The embedding below mirrors that structure:

* a `Json` value model together with a renderer that reproduces the output of
  Go's `encoding/json` marshaller on the value shapes the service constructs
  (struct field order, `omitempty`, map/array/int/string rendering, HTML-aware
  string escaping);
* a model of Go's `path.Join` / `path.Clean` (lexical cleaning);
* the collaborator interface (`requestFactory`, `Synchronous`, codecs) as a
  record of functions, so theorems quantify over every possible collaborator
  behaviour;
* one Lean function per Go method, translated branch by branch.
-/

/- ===== JSON value model and the `encoding/json` renderer ===== -/

/-- JSON values as constructed by the order service: integers, strings,
arrays, objects with an explicit field order, and `null`. -/
inductive Json where
  | null : Json
  | num (n : Int) : Json
  | str (s : String) : Json
  | arr (xs : List Json) : Json
  | obj (fields : List (String × Json)) : Json

/-- Lower hexadecimal digit, as used by `encoding/json` unicode escapes. -/
def hexDigit (n : Nat) : Char := if n < 10 then Char.ofNat (48 + n) else Char.ofNat (87 + n)

/-- A `\u00XX` escape sequence. -/
def uEsc (c : Char) : List Char := ['\\', 'u', '0', '0', hexDigit (c.toNat / 16 % 16), hexDigit (c.toNat % 16)]

/-- Go `encoding/json` string escaping for one character: quote and backslash
are backslash-escaped, newline/carriage-return/tab use short escapes, the
HTML-sensitive characters and control characters use unicode escapes. -/
def escChar (c : Char) : List Char :=
  if c = '"' then ['\\', '"']
  else if c = '\\' then ['\\', '\\']
  else if c = '\n' then ['\\', 'n']
  else if c = '\r' then ['\\', 'r']
  else if c = '\t' then ['\\', 't']
  else if c = '<' ∨ c = '>' ∨ c = '&' then uEsc c
  else if c.toNat < 32 then uEsc c
  else [c]

/-- Escape a character list, consing onto an accumulator. -/
def escAux : List Char → List Char → List Char
  | [], acc => acc
  | c :: rest, acc => escChar c ++ escAux rest acc

mutual

/-- Render a JSON value onto an accumulator, reproducing Go's
`encoding/json.Marshal` output for the shapes the order service builds:
no whitespace, object fields in the given order, integers in decimal. -/
def renderAux : Json → List Char → List Char
  | .null, acc => 'n' :: 'u' :: 'l' :: 'l' :: acc
  | .num n, acc => (toString n).data ++ acc
  | .str s, acc => '"' :: escAux s.data ('"' :: acc)
  | .arr xs, acc => '[' :: renderArrAux xs (']' :: acc)
  | .obj fs, acc => '\x7b' :: renderObjAux fs ('\x7d' :: acc)

/-- Render the comma-separated elements of a JSON array. -/
def renderArrAux : List Json → List Char → List Char
  | [], acc => acc
  | [x], acc => renderAux x acc
  | x :: y :: rest, acc => renderAux x (',' :: renderArrAux (y :: rest) acc)

/-- Render the comma-separated `"key":value` fields of a JSON object. -/
def renderObjAux : List (String × Json) → List Char → List Char
  | [], acc => acc
  | [(k, v)], acc => '"' :: escAux k.data ('"' :: ':' :: renderAux v acc)
  | (k, v) :: f :: rest, acc =>
    '"' :: escAux k.data ('"' :: ':' :: renderAux v (',' :: renderObjAux (f :: rest) acc))

end

/-- `json.Marshal` of a `Json` value, as a string. -/
def renderJson (j : Json) : String := ⟨renderAux j []⟩

/- ===== Go `path` package: Clean and Join ===== -/

/-- Split a character list at `/` separators (the segment view used by Go's
lexical path cleaning). -/
def segSplit : List Char → List Char → List (List Char)
  | [], acc => [acc.reverse]
  | c :: rest, acc =>
    if c = '/' then acc.reverse :: segSplit rest []
    else segSplit rest (c :: acc)

/-- The segment pass of Go's `path.Clean`: drop empty and `.` segments,
let `..` remove the preceding segment, keep leading `..` segments in a
relative path and drop them at the root of a rooted path. -/
def cleanSegs (rooted : Bool) : List (List Char) → List (List Char) → List (List Char)
  | [], stack => stack.reverse
  | s :: rest, stack =>
    if s = [] ∨ s = ['.'] then cleanSegs rooted rest stack
    else if s = ['.', '.'] then
      match stack with
      | [] => if rooted then cleanSegs rooted rest [] else cleanSegs rooted rest [s]
      | t :: stack2 =>
        if t = ['.', '.'] then cleanSegs rooted rest (s :: t :: stack2)
        else cleanSegs rooted rest stack2
    else cleanSegs rooted rest (s :: stack)

/-- Join segments with `/` separators. -/
def joinSegs : List (List Char) → List Char
  | [] => []
  | [s] => s
  | s :: t :: rest => s ++ '/' :: joinSegs (t :: rest)

/-- Go's `path.Clean`: lexical cleaning of a slash-separated path — collapse
repeated slashes, drop `.` segments, resolve `..` against the preceding
segment, return `.` for an empty result, preserve a leading `/`. -/
def goPathClean (p : String) : String :=
  match p.data with
  | [] => "."
  | c :: cs =>
    let rooted := c = '/'
    let body := joinSegs (cleanSegs rooted (segSplit (c :: cs) []) [])
    if rooted then ⟨'/' :: body⟩
    else if body = [] then "." else ⟨body⟩

/-- Go's `path.Join`: skip leading empty elements, join the remaining
elements (including interior empty ones) with `/`, and `Clean` the result;
all-empty input yields the empty string. -/
def goPathJoin (elems : List String) : String :=
  match elems.dropWhile (fun e => e = "") with
  | [] => ""
  | e :: rest => goPathClean ⟨joinSegs ((e :: rest).map String.data)⟩

/- ===== Domain model and collaborator interface ===== -/

/-- Errors visible to the order service: the package-level not-found value
`bitfinex.ErrNotFound`, and opaque errors produced by collaborators
(transport, auth, decode, serialization). -/
inductive Err where
  | notFound : Err
  | other (msg : String) : Err
deriving DecidableEq

/-- Permission level attached to an authenticated request
(`bitfinex.PermissionRead` / `bitfinex.PermissionWrite`). -/
inductive Permission where
  | read : Permission
  | write : Permission
deriving DecidableEq

/-- An authenticated request as produced by the request factory; the order
service treats it as opaque and only passes it to the executor. -/
structure Request where
  path : String
  body : String
deriving DecidableEq

/-- Raw wire payload (`[]interface``{``}` in Go), as decoded JSON items. -/
abbrev Raw := List Json

/-- Modelled from the spec: `bitfinex.Order` (not under the sources here) is
an opaque order record identified by an integer ID, with a symbol. -/
structure Order where
  id : Int
  symbol : String

/-- `bitfinex.OrderSnapshot`: an ordered sequence of orders; the zero value
holds the empty sequence. -/
structure OrderSnapshot where
  snapshot : List Order

/-- Modelled from the spec: the opaque notification envelope
(`bitfinex.Notification`) returned by write operations. -/
structure Notification where
  data : Raw

/-- Modelled from the spec: the opaque trade-execution-update snapshot. -/
structure TradeExecutionUpdateSnapshot where
  data : Raw

/-- Modelled from the spec: `bitfinex.OrderNewRequest` (not under the sources
here) — consumed through `ToJSON` (fallible wire serialization) and
`EnrichedPayload` (the order's fields plus batch metadata). -/
structure OrderNewRequest where
  toJSON : Except Err String
  enrichedPayload : Json

/-- Modelled from the spec: `bitfinex.OrderUpdateRequest`, consumed through
`ToJSON` and `EnrichedPayload`. -/
structure OrderUpdateRequest where
  toJSON : Except Err String
  enrichedPayload : Json

/-- Modelled from the spec: `bitfinex.OrderCancelRequest`, consumed through
`ToJSON`. -/
structure OrderCancelRequest where
  toJSON : Except Err String

/-- `type OrderIDs []int` -/
abbrev OrderIDs := List Int

/-- `type GroupOrderIDs []int` -/
abbrev GroupOrderIDs := List Int

/-- `type ClientOrderIDs [][]interface``{``}` -/
abbrev ClientOrderIDs := List (List Json)

/-- `type OrderOps [][]interface``{``}` — the ordered operation list of a
multi-op request; each operation is itself a list (tag followed by payload). -/
abbrev OrderOps := List (List Json)

/-- `OrderMultiOpsRequest`: struct with the single field `Ops` tagged
`json:"ops"`; its marshalling wraps the operation list as
`{"ops": [...]}` with each operation kept as a JSON array. -/
def orderMultiOpsRequestJson (ops : List (List Json)) : Json :=
  Json.obj [("ops", Json.arr (ops.map Json.arr))]

/-- `CancelOrderMultiRequest`: struct fields `OrderIDs`/`GroupOrderIDs`/
`ClientOrderIDs`/`All` with JSON tags `id`/`gid`/`cid`/`all`, each
`omitempty`. -/
structure CancelOrderMultiRequest where
  orderIDs : List Int
  groupOrderIDs : List Int
  clientOrderIDs : List (List Json)
  all : Int

/-- Marshalling of `CancelOrderMultiRequest`: fields in declaration order,
each omitted when empty (empty slice, zero int) per its `omitempty` tag. -/
def cancelOrderMultiRequestFields (r : CancelOrderMultiRequest) : List (String × Json) :=
  (if r.orderIDs.isEmpty then [] else [("id", Json.arr (r.orderIDs.map Json.num))])
    ++ (if r.groupOrderIDs.isEmpty then [] else [("gid", Json.arr (r.groupOrderIDs.map Json.num))])
    ++ (if r.clientOrderIDs.isEmpty then [] else [("cid", Json.arr (r.clientOrderIDs.map Json.arr))])
    ++ (if r.all = 0 then [] else [("all", Json.num r.all)])

/-- The JSON object `json.Marshal` produces for a `CancelOrderMultiRequest`. -/
def cancelOrderMultiRequestJson (r : CancelOrderMultiRequest) : Json :=
  Json.obj (cancelOrderMultiRequestFields r)

/-- The collaborators of `OrderService` (`requestFactory`, `Synchronous`, and
the `bitfinex` codecs), as unconstrained functions.  The codec for order
snapshots may return a nil snapshot with a nil error ("no data"); the
notification and trade codecs return a value or an error. -/
structure OrderService where
  newAuthenticatedRequest : Permission → String → Except Err Request
  newAuthenticatedRequestWithBytes : Permission → String → String → Except Err Request
  request : Request → Except Err Raw
  newOrderSnapshotFromRaw : Raw → Option OrderSnapshot × Option Err
  newNotificationFromRaw : Raw → Except Err Notification
  newTradeExecutionUpdateSnapshotFromRaw : Raw → Except Err TradeExecutionUpdateSnapshot

/- ===== The Go methods, translated branch by branch ===== -/

/-- The Go error-propagation idiom `v, err := f(); if err != nil
\x7b return nil, err \x7d`: on error return `(nil, err)`, otherwise continue
with the value. -/
def step {α β : Type} (x : Except Err α) (k : α → Option β × Option Err) : Option β × Option Err :=
  match x with
  | .error e => (none, some e)
  | .ok a => k a

/-- A Go `(pointer, error)` pair returned verbatim from a codec call. -/
def exceptToPair {α : Type} (x : Except Err α) : Option α × Option Err :=
  match x with
  | .error e => (none, some e)
  | .ok a => (some a, none)

/-- `getActiveOrders`: build path `path.Join("orders", symbol)`, execute with
read permission, decode; a nil snapshot with nil error becomes a fresh empty
snapshot. -/
def OrderService.getActiveOrders (s : OrderService) (symbol : String) : Option OrderSnapshot × Option Err :=
  step (s.newAuthenticatedRequest Permission.read (goPathJoin ["orders", symbol])) fun req =>
  step (s.request req) fun raw =>
  match s.newOrderSnapshotFromRaw raw with
  | (_, some e) => (none, some e)
  | (none, none) => (some ⟨[]⟩, none)
  | (some os, none) => (some os, none)

/-- `getHistoricalOrders`: same shape with path
`path.Join("orders", symbol, "hist")`. -/
def OrderService.getHistoricalOrders (s : OrderService) (symbol : String) : Option OrderSnapshot × Option Err :=
  step (s.newAuthenticatedRequest Permission.read (goPathJoin ["orders", symbol, "hist"])) fun req =>
  step (s.request req) fun raw =>
  match s.newOrderSnapshotFromRaw raw with
  | (_, some e) => (none, some e)
  | (none, none) => (some ⟨[]⟩, none)
  | (some os, none) => (some os, none)

/-- `All()`: active orders with no symbol. -/
def OrderService.All (s : OrderService) : Option OrderSnapshot × Option Err :=
  s.getActiveOrders ""

/-- `GetBySymbol(symbol)`. -/
def OrderService.GetBySymbol (s : OrderService) (symbol : String) : Option OrderSnapshot × Option Err :=
  s.getActiveOrders symbol

/-- `GetByOrderId(orderID)`: fetch all active orders, then linear-scan for the
first order with the given ID; a miss yields `bitfinex.ErrNotFound`.  (The
`(nil, nil)` fetch outcome cannot occur — `getActiveOrders` coalesces it —
and is mapped to the not-found error here.) -/
def OrderService.GetByOrderId (s : OrderService) (orderID : Int) : Option Order × Option Err :=
  match s.All with
  | (_, some e) => (none, some e)
  | (some os, none) =>
    match os.snapshot.find? (fun o => o.id == orderID) with
    | some o => (some o, none)
    | none => (none, some Err.notFound)
  | (none, none) => (none, some Err.notFound)

/-- `AllHistory()`: historical orders with no symbol. -/
def OrderService.AllHistory (s : OrderService) : Option OrderSnapshot × Option Err :=
  s.getHistoricalOrders ""

/-- `GetHistoryBySymbol(symbol)`. -/
def OrderService.GetHistoryBySymbol (s : OrderService) (symbol : String) : Option OrderSnapshot × Option Err :=
  s.getHistoricalOrders symbol

/-- `GetHistoryByOrderId(orderID)`: like `GetByOrderId` over the historical
snapshot. -/
def OrderService.GetHistoryByOrderId (s : OrderService) (orderID : Int) : Option Order × Option Err :=
  match s.AllHistory with
  | (_, some e) => (none, some e)
  | (some os, none) =>
    match os.snapshot.find? (fun o => o.id == orderID) with
    | some o => (some o, none)
    | none => (none, some Err.notFound)
  | (none, none) => (none, some Err.notFound)

/-- `OrderTrades(symbol, orderID)`: path
`path.Join("order", fmt.Sprintf("%s:%d", symbol, orderID), "trades")`, read
permission, decoded as a trade-execution-update snapshot. -/
def OrderService.OrderTrades (s : OrderService) (symbol : String) (orderID : Int) : Option TradeExecutionUpdateSnapshot × Option Err :=
  step (s.newAuthenticatedRequest Permission.read (goPathJoin ["order", symbol ++ ":" ++ toString orderID, "trades"])) fun req =>
  step (s.request req) fun raw =>
  exceptToPair (s.newTradeExecutionUpdateSnapshotFromRaw raw)

/-- `SubmitOrder(order)`: serialize the order request, POST to
`order/submit` with write permission, decode a notification. -/
def OrderService.SubmitOrder (s : OrderService) (order : OrderNewRequest) : Option Notification × Option Err :=
  step order.toJSON fun bytes =>
  step (s.newAuthenticatedRequestWithBytes Permission.write (goPathJoin ["order", "submit"]) bytes) fun req =>
  step (s.request req) fun raw =>
  exceptToPair (s.newNotificationFromRaw raw)

/-- `SubmitUpdateOrder(order)`: same shape with path `order/update`. -/
def OrderService.SubmitUpdateOrder (s : OrderService) (order : OrderUpdateRequest) : Option Notification × Option Err :=
  step order.toJSON fun bytes =>
  step (s.newAuthenticatedRequestWithBytes Permission.write (goPathJoin ["order", "update"]) bytes) fun req =>
  step (s.request req) fun raw =>
  exceptToPair (s.newNotificationFromRaw raw)

/-- `SubmitCancelOrder(oc)`: serialize, POST to `order/cancel`, discard the
raw response and return only the error value. -/
def OrderService.SubmitCancelOrder (s : OrderService) (oc : OrderCancelRequest) : Option Err :=
  match oc.toJSON with
  | .error e => some e
  | .ok bytes =>
    match s.newAuthenticatedRequestWithBytes Permission.write (goPathJoin ["order", "cancel"]) bytes with
    | .error e => some e
    | .ok req =>
      match s.request req with
      | .error e => some e
      | .ok _ => none

/-- `CancelOrderMulti(args)`: marshal the filter struct directly (Go's
`json.Marshal` cannot fail on this type, so the marshal step is total),
POST to `order/cancel/multi`, decode a notification. -/
def OrderService.CancelOrderMulti (s : OrderService) (args : CancelOrderMultiRequest) : Option Notification × Option Err :=
  step (s.newAuthenticatedRequestWithBytes Permission.write (goPathJoin ["order", "cancel", "multi"]) (renderJson (cancelOrderMultiRequestJson args))) fun req =>
  step (s.request req) fun raw =>
  exceptToPair (s.newNotificationFromRaw raw)

/-- The one-element ops list `[["oc_multi", {"id": ids}]]` built by
`CancelOrdersMultiOp`. -/
def cancelOrdersMultiOpPld (ids : List Int) : List (List Json) :=
  [[Json.str "oc_multi", Json.obj [("id", Json.arr (ids.map Json.num))]]]

/-- The marshalled body of `CancelOrdersMultiOp`. -/
def cancelOrdersMultiOpBody (ids : List Int) : String :=
  renderJson (orderMultiOpsRequestJson (cancelOrdersMultiOpPld ids))

/-- `CancelOrdersMultiOp(ids)`: wrap the ID list as
`{"ops":[["oc_multi",{"id": ids}]]}` and POST to `order/multi`. -/
def OrderService.CancelOrdersMultiOp (s : OrderService) (ids : List Int) : Option Notification × Option Err :=
  step (s.newAuthenticatedRequestWithBytes Permission.write (goPathJoin ["order", "multi"]) (cancelOrdersMultiOpBody ids)) fun req =>
  step (s.request req) fun raw =>
  exceptToPair (s.newNotificationFromRaw raw)

/-- The one-element ops list `[["oc", {"id": orderID}]]` built by
`CancelOrderMultiOp`. -/
def cancelOrderMultiOpPld (orderID : Int) : List (List Json) :=
  [[Json.str "oc", Json.obj [("id", Json.num orderID)]]]

/-- The marshalled body of `CancelOrderMultiOp`. -/
def cancelOrderMultiOpBody (orderID : Int) : String :=
  renderJson (orderMultiOpsRequestJson (cancelOrderMultiOpPld orderID))

/-- `CancelOrderMultiOp(orderID)`: wrap the ID as
`{"ops":[["oc",{"id": orderID}]]}` and POST to `order/multi`. -/
def OrderService.CancelOrderMultiOp (s : OrderService) (orderID : Int) : Option Notification × Option Err :=
  step (s.newAuthenticatedRequestWithBytes Permission.write (goPathJoin ["order", "multi"]) (cancelOrderMultiOpBody orderID)) fun req =>
  step (s.request req) fun raw =>
  exceptToPair (s.newNotificationFromRaw raw)

/-- `OrderNewMultiOp(order)`: one `"on"` operation holding the order's
enriched payload, POSTed to `order/multi`. -/
def OrderService.OrderNewMultiOp (s : OrderService) (order : OrderNewRequest) : Option Notification × Option Err :=
  step (s.newAuthenticatedRequestWithBytes Permission.write (goPathJoin ["order", "multi"]) (renderJson (orderMultiOpsRequestJson [[Json.str "on", order.enrichedPayload]]))) fun req =>
  step (s.request req) fun raw =>
  exceptToPair (s.newNotificationFromRaw raw)

/-- `OrderUpdateMultiOp(order)`: one `"ou"` operation holding the order's
enriched payload, POSTed to `order/multi`. -/
def OrderService.OrderUpdateMultiOp (s : OrderService) (order : OrderUpdateRequest) : Option Notification × Option Err :=
  step (s.newAuthenticatedRequestWithBytes Permission.write (goPathJoin ["order", "multi"]) (renderJson (orderMultiOpsRequestJson [[Json.str "ou", order.enrichedPayload]]))) fun req =>
  step (s.request req) fun raw =>
  exceptToPair (s.newNotificationFromRaw raw)

/-- `OrderMultiOp(ops)`: marshal the caller-assembled operation list as
`{"ops": ops}` and POST to `order/multi`. -/
def OrderService.OrderMultiOp (s : OrderService) (ops : List (List Json)) : Option Notification × Option Err :=
  step (s.newAuthenticatedRequestWithBytes Permission.write (goPathJoin ["order", "multi"]) (renderJson (orderMultiOpsRequestJson ops))) fun req =>
  step (s.request req) fun raw =>
  exceptToPair (s.newNotificationFromRaw raw)

/- ===== Helper definitions and lemmas for the verification ===== -/

/-- Two strings with the same character data are equal. -/
theorem str_ext {a b : String} (h : a.data = b.data) : a = b := congrArg String.mk h

/-- The happy-path request/response cycle every `order/multi`-style write
performs: build an authenticated write request for a path and body, execute
it, decode the notification; errors short-circuit. -/
def notificationRoundTrip (s : OrderService) (p : String) (body : String) : Option Notification × Option Err :=
  step (s.newAuthenticatedRequestWithBytes Permission.write p body) fun req =>
  step (s.request req) fun raw =>
  exceptToPair (s.newNotificationFromRaw raw)

/-- A caller-assembled list of tagged operations, each a `[tag, payload]`
pair, as the `OrderOps` value handed to `OrderMultiOp`. -/
def taggedOps (tps : List (String × Json)) : List (List Json) :=
  tps.map (fun tp => [Json.str tp.1, tp.2])

/-- The Go `(pointer, error)` outcome discipline: a value with a nil error,
or a nil value with a non-nil error. -/
def okOrErr {α : Type} (r : Option α × Option Err) : Prop :=
  (∃ a, r = (some a, none)) ∨ (∃ e, r = (none, some e))

theorem okOrErr_step {α β : Type} (x : Except Err α) (k : α → Option β × Option Err)
    (hk : ∀ a, okOrErr (k a)) : okOrErr (step x k) := by
  cases x with
  | error e => exact Or.inr ⟨e, rfl⟩
  | ok a => exact hk a

theorem okOrErr_exceptToPair {α : Type} (x : Except Err α) : okOrErr (exceptToPair x) := by
  cases x with
  | error e => exact Or.inr ⟨e, rfl⟩
  | ok a => exact Or.inl ⟨a, rfl⟩

/-- In a list of orders with pairwise distinct IDs, `find?` on an ID held by
a member returns exactly that member. -/
theorem find_uniq {l : List Order} {o : Order} {i : Int}
    (hp : l.Pairwise (fun a b => a.id ≠ b.id)) (hm : o ∈ l) (hid : o.id = i) :
    l.find? (fun x => x.id == i) = some o := by
  induction l with
  | nil => cases hm
  | cons h t ih =>
    rcases List.pairwise_cons.mp hp with ⟨hh, hp2⟩
    rcases List.mem_cons.mp hm with rfl | hmt
    · rw [List.find?_cons_of_pos]
      simp [hid]
    · have hne : (h.id == i) = false := by
        simp only [beq_eq_false_iff_ne, ne_eq]
        intro he
        exact hh o hmt (by rw [he, hid])
      rw [List.find?_cons_of_neg _ (by simp [hne])]
      exact ih hp2 hmt

/-- A stub collaborator set: the factory echoes path and body into the
request, the executor returns a fixed raw payload, the snapshot codec
returns a fixed outcome, and the notification and trade codecs wrap the raw
payload. -/
def svcOf (raw : Raw) (snap : Option OrderSnapshot × Option Err) : OrderService :=
  ⟨fun _ p => .ok ⟨p, ""⟩,
   fun _ p b => .ok ⟨p, b⟩,
   fun _ => .ok raw,
   fun _ => snap,
   fun r => .ok ⟨r⟩,
   fun r => .ok ⟨r⟩⟩

/- ===== Claims ===== -/

/-- C2: `OrderMultiOp` serializes the wire body as an `{"ops": [...]}` object
whose operation array lists the caller-supplied tagged operations element for
element and in the same order, each kept as a `[tag, payload]` array, and
submits that body to `order/multi` in one round trip. -/
theorem claim_C2 (s : OrderService) (tps : List (String × Json)) :
    OrderService.OrderMultiOp s (taggedOps tps)
      = notificationRoundTrip s (goPathJoin ["order", "multi"])
          (renderJson (Json.obj [("ops", Json.arr (tps.map (fun tp => Json.arr [Json.str tp.1, tp.2])))]))
    ∧ (∀ i : Nat, (taggedOps tps).get? i = (tps.get? i).map (fun tp => [Json.str tp.1, tp.2]))
    ∧ orderMultiOpsRequestJson (taggedOps tps)
        = Json.obj [("ops", Json.arr ((taggedOps tps).map Json.arr))] := by
  refine ⟨?_, ?_, rfl⟩
  · simp only [OrderService.OrderMultiOp, notificationRoundTrip, orderMultiOpsRequestJson,
      taggedOps, List.map_map]
    rfl
  · intro i
    simp [taggedOps]

/-- C3: `CancelOrderMultiOp` on order ID 42 marshals the body
`{"ops":[["oc",{"id":42}]]}` exactly, and on every ID `n` the body
`{"ops":[["oc",{"id":` n `}]]}` with `n` in decimal. -/
theorem claim_C3 :
    cancelOrderMultiOpBody 42 = "\x7b\"ops\":[[\"oc\",\x7b\"id\":42\x7d]]\x7d"
    ∧ ∀ n : Int, cancelOrderMultiOpBody n
        = "\x7b\"ops\":[[\"oc\",\x7b\"id\":" ++ toString n ++ "\x7d]]\x7d" := by
  refine ⟨rfl, fun n => rfl⟩

/-- C4: `CancelOrdersMultiOp` on the ID list `[1,2,3]` marshals the body
`{"ops":[["oc_multi",{"id":[1,2,3]}]]}` exactly, and on every non-empty ID
list the marshalled object holds a single `"oc_multi"`-tagged operation whose
payload maps `"id"` to the input list in order. -/
theorem claim_C4 :
    cancelOrdersMultiOpBody [1, 2, 3] = "\x7b\"ops\":[[\"oc_multi\",\x7b\"id\":[1,2,3]\x7d]]\x7d"
    ∧ ∀ ids : List Int, ids ≠ [] →
        orderMultiOpsRequestJson (cancelOrdersMultiOpPld ids)
          = Json.obj [("ops", Json.arr [Json.arr [Json.str "oc_multi",
              Json.obj [("id", Json.arr (ids.map Json.num))]]])] := by
  exact ⟨rfl, fun ids _ => rfl⟩

/-- Witness for C4 at the non-empty list `[5]`. -/
theorem claim_C4_witness :
    orderMultiOpsRequestJson (cancelOrdersMultiOpPld [5])
      = Json.obj [("ops", Json.arr [Json.arr [Json.str "oc_multi",
          Json.obj [("id", Json.arr ([5].map Json.num))]]])] :=
  claim_C4.2 [5] (by decide)

/-- C10: on the empty ID list `CancelOrdersMultiOp` still marshals a
one-element `"oc_multi"` ops array whose payload maps `"id"` to the empty
array, and submits that body to `order/multi` for every collaborator set
(the input is not rejected). -/
theorem claim_C10 :
    cancelOrdersMultiOpBody [] = "\x7b\"ops\":[[\"oc_multi\",\x7b\"id\":[]\x7d]]\x7d"
    ∧ (∀ s : OrderService, OrderService.CancelOrdersMultiOp s []
        = notificationRoundTrip s (goPathJoin ["order", "multi"]) (cancelOrdersMultiOpBody []))
    ∧ goPathJoin ["order", "multi"] = "order/multi" := by
  exact ⟨rfl, fun s => rfl, rfl⟩

/-- Fixed raw venue responses used by concrete collaborator instances. -/
def rawOne : Raw := [Json.num 1]

/-- A second, different raw venue response. -/
def rawTwo : Raw := [Json.num 2]

/-- A cancel request whose wire serialization succeeds. -/
def ocStub : OrderCancelRequest := ⟨.ok ("\x7b\"id\":7\x7d")⟩

/-- C1 fails on the code: two collaborator sets that differ only in the
venue's response — whose notification decodings differ — give the identical
bare result from `SubmitCancelOrder`, so the caller cannot read the
notification result from the return; the response is discarded. -/
theorem claim_C1_counterexample :
    OrderService.SubmitCancelOrder (svcOf rawOne (none, none)) ocStub
      = OrderService.SubmitCancelOrder (svcOf rawTwo (none, none)) ocStub
    ∧ (svcOf rawOne (none, none)).newNotificationFromRaw rawOne
        ≠ (svcOf rawTwo (none, none)).newNotificationFromRaw rawTwo := by
  refine ⟨rfl, ?_⟩
  simp [svcOf, rawOne, rawTwo]

/-- C1 amended: `SubmitCancelOrder` surfaces only the success/error outcome —
on any successful round trip it returns the bare success `none`, with the
venue's notification discarded rather than surfaced. -/
theorem claim_C1_amended (s : OrderService) (oc : OrderCancelRequest) (b : String)
    (req : Request) (raw : Raw)
    (h1 : oc.toJSON = .ok b)
    (h2 : s.newAuthenticatedRequestWithBytes Permission.write (goPathJoin ["order", "cancel"]) b = .ok req)
    (h3 : s.request req = .ok raw) :
    OrderService.SubmitCancelOrder s oc = none := by
  simp only [OrderService.SubmitCancelOrder, h1, h2, h3]

/-- Witness for the amended C1 on a concrete collaborator set. -/
theorem claim_C1_witness :
    OrderService.SubmitCancelOrder (svcOf rawOne (none, none)) ocStub = none :=
  claim_C1_amended (svcOf rawOne (none, none)) ocStub ("\x7b\"id\":7\x7d")
    ⟨"order/cancel", ("\x7b\"id\":7\x7d")⟩ rawOne rfl rfl rfl

/-- C5: the cancel-multi filter with only the all-flag set marshals to
`{"all":1}` exactly, and in general each of the four fields appears in the
marshalled payload precisely when it is set (non-empty list, non-zero flag) —
unset fields are omitted entirely. -/
theorem claim_C5 :
    renderJson (cancelOrderMultiRequestJson ⟨[], [], [], 1⟩) = "\x7b\"all\":1\x7d"
    ∧ ∀ r : CancelOrderMultiRequest,
        (("id" ∈ (cancelOrderMultiRequestFields r).map Prod.fst) ↔ r.orderIDs ≠ [])
        ∧ (("gid" ∈ (cancelOrderMultiRequestFields r).map Prod.fst) ↔ r.groupOrderIDs ≠ [])
        ∧ (("cid" ∈ (cancelOrderMultiRequestFields r).map Prod.fst) ↔ r.clientOrderIDs ≠ [])
        ∧ (("all" ∈ (cancelOrderMultiRequestFields r).map Prod.fst) ↔ r.all ≠ 0) := by
  refine ⟨rfl, fun r => ?_⟩
  obtain ⟨a, b, c, d⟩ := r
  rcases a with _ | ⟨x, a⟩ <;> rcases b with _ | ⟨y, b⟩ <;> rcases c with _ | ⟨z, c⟩ <;>
    by_cases hd : d = 0 <;>
    simp [cancelOrderMultiRequestFields, hd]

/-- Witness for C5: a set `id` field is present in the marshalled payload. -/
theorem claim_C5_witness :
    ("id" ∈ (cancelOrderMultiRequestFields ⟨[3], [], [], 0⟩).map Prod.fst) :=
  ((claim_C5.2 ⟨[3], [], [], 0⟩).1).mpr (by decide)

/-- A result obeying the ok-xor-error discipline is never the nil/nil pair. -/
theorem okOrErr_ne_nilnil {α : Type} {r : Option α × Option Err}
    (h : okOrErr r) : r ≠ (none, none) := by
  rcases h with ⟨a, ha⟩ | ⟨e, he⟩ <;> intro hc
  · rw [ha] at hc
    exact Option.noConfusion (congrArg Prod.fst hc)
  · rw [he] at hc
    exact Option.noConfusion (congrArg Prod.snd hc)

/-- The snapshot-decode branch of `getActiveOrders`/`getHistoricalOrders`
obeys the ok-xor-error discipline however the codec behaves. -/
theorem okOrErr_snapshotDecode (x : Option OrderSnapshot × Option Err) :
    okOrErr (match x with
      | (_, some e) => (none, some e)
      | (none, none) => (some (⟨[]⟩ : OrderSnapshot), none)
      | (some os, none) => (some os, none)) := by
  rcases x with ⟨_ | os, _ | e⟩
  · exact Or.inl ⟨⟨[]⟩, rfl⟩
  · exact Or.inr ⟨e, rfl⟩
  · exact Or.inl ⟨os, rfl⟩
  · exact Or.inr ⟨e, rfl⟩

/-- C6: neither order-listing operation can return a nil snapshot together
with a nil error, for any collaborator behaviour and any symbol (including
the empty one); and whenever the codec decodes the response to the nil
snapshot with nil error ("no data"), the operation returns a fresh empty
snapshot with nil error. -/
theorem claim_C6 (s : OrderService) (symbol : String) :
    OrderService.getActiveOrders s symbol ≠ ((none : Option OrderSnapshot), (none : Option Err))
    ∧ OrderService.getHistoricalOrders s symbol ≠ ((none : Option OrderSnapshot), (none : Option Err))
    ∧ (∀ req raw, s.newAuthenticatedRequest Permission.read (goPathJoin ["orders", symbol]) = .ok req →
        s.request req = .ok raw → s.newOrderSnapshotFromRaw raw = (none, none) →
        OrderService.getActiveOrders s symbol = (some ⟨[]⟩, none))
    ∧ (∀ req raw, s.newAuthenticatedRequest Permission.read (goPathJoin ["orders", symbol, "hist"]) = .ok req →
        s.request req = .ok raw → s.newOrderSnapshotFromRaw raw = (none, none) →
        OrderService.getHistoricalOrders s symbol = (some ⟨[]⟩, none)) := by
  refine ⟨?_, ?_, ?_, ?_⟩
  · unfold OrderService.getActiveOrders
    apply okOrErr_ne_nilnil
    apply okOrErr_step; intro req
    apply okOrErr_step; intro raw
    exact okOrErr_snapshotDecode _
  · unfold OrderService.getHistoricalOrders
    apply okOrErr_ne_nilnil
    apply okOrErr_step; intro req
    apply okOrErr_step; intro raw
    exact okOrErr_snapshotDecode _
  · intro req raw hf hr hc
    simp only [OrderService.getActiveOrders, step, hf, hr, hc]
  · intro req raw hf hr hc
    simp only [OrderService.getHistoricalOrders, step, hf, hr, hc]

/-- A stub collaborator set whose snapshot codec reports "no data". -/
def svcNoData : OrderService := svcOf [] (none, none)

/-- Witness for C6: with a "no data" decode both listings return the fresh
empty snapshot, and neither result is the nil/nil pair. -/
theorem claim_C6_witness :
    OrderService.getActiveOrders svcNoData "" = (some ⟨[]⟩, none)
    ∧ OrderService.getHistoricalOrders svcNoData "" = (some ⟨[]⟩, none) :=
  ⟨(claim_C6 svcNoData "").2.2.1 ⟨"orders", ""⟩ [] rfl rfl rfl,
   (claim_C6 svcNoData "").2.2.2 ⟨"orders/hist", ""⟩ [] rfl rfl rfl⟩

/-- Reduce `GetByOrderId` to the linear scan once the active fetch result is
known to be a successful snapshot. -/
theorem byId_of_fetch {s : OrderService} {snap : OrderSnapshot} {orderID : Int}
    (h : s.All = (some snap, none)) :
    s.GetByOrderId orderID
      = match snap.snapshot.find? (fun o => o.id == orderID) with
        | some o => (some o, none)
        | none => (none, some Err.notFound) := by
  unfold OrderService.GetByOrderId
  rw [h]

/-- Reduce `GetHistoryByOrderId` to the linear scan once the historical fetch
result is known to be a successful snapshot. -/
theorem byIdHist_of_fetch {s : OrderService} {snap : OrderSnapshot} {orderID : Int}
    (h : s.AllHistory = (some snap, none)) :
    s.GetHistoryByOrderId orderID
      = match snap.snapshot.find? (fun o => o.id == orderID) with
        | some o => (some o, none)
        | none => (none, some Err.notFound) := by
  unfold OrderService.GetHistoryByOrderId
  rw [h]

/-- C7: over a successfully fetched snapshot with pairwise-distinct order
IDs, the by-ID lookups return exactly the unique matching order when one
exists, and exactly the distinct not-found error (never a transport or
decode error) when none does; the same holds for the historical lookup. -/
theorem claim_C7 (s : OrderService) (orderID : Int) :
    (∀ snap, OrderService.getActiveOrders s "" = (some snap, none) →
      snap.snapshot.Pairwise (fun a b => a.id ≠ b.id) →
      (∀ o, o ∈ snap.snapshot → o.id = orderID →
        OrderService.GetByOrderId s orderID = (some o, none))
      ∧ ((∀ o, o ∈ snap.snapshot → o.id ≠ orderID) →
        OrderService.GetByOrderId s orderID = (none, some Err.notFound)))
    ∧ (∀ snap, OrderService.getHistoricalOrders s "" = (some snap, none) →
      snap.snapshot.Pairwise (fun a b => a.id ≠ b.id) →
      (∀ o, o ∈ snap.snapshot → o.id = orderID →
        OrderService.GetHistoryByOrderId s orderID = (some o, none))
      ∧ ((∀ o, o ∈ snap.snapshot → o.id ≠ orderID) →
        OrderService.GetHistoryByOrderId s orderID = (none, some Err.notFound))) := by
  constructor
  · intro snap hfetch hp
    have hAll : s.All = (some snap, none) := hfetch
    constructor
    · intro o hm hid
      rw [byId_of_fetch hAll, find_uniq hp hm hid]
    · intro hno
      have hfind : snap.snapshot.find? (fun o => o.id == orderID) = none :=
        List.find?_eq_none.mpr (fun o hm => by simp [hno o hm])
      rw [byId_of_fetch hAll, hfind]
  · intro snap hfetch hp
    have hAll : s.AllHistory = (some snap, none) := hfetch
    constructor
    · intro o hm hid
      rw [byIdHist_of_fetch hAll, find_uniq hp hm hid]
    · intro hno
      have hfind : snap.snapshot.find? (fun o => o.id == orderID) = none :=
        List.find?_eq_none.mpr (fun o hm => by simp [hno o hm])
      rw [byIdHist_of_fetch hAll, hfind]

/-- A stub collaborator set whose snapshot codec returns a one-order
snapshot. -/
def svcSnap : OrderService := svcOf [] (some ⟨[⟨7, "tBTCUSD"⟩]⟩, none)

/-- Witness for C7: the lookup finds order 7 in the one-order snapshot and
reports not-found for ID 8. -/
theorem claim_C7_witness :
    OrderService.GetByOrderId svcSnap 7 = (some ⟨7, "tBTCUSD"⟩, none)
    ∧ OrderService.GetByOrderId svcSnap 8 = (none, some Err.notFound) := by
  constructor
  · exact ((claim_C7 svcSnap 7).1 ⟨[⟨7, "tBTCUSD"⟩]⟩ rfl (by simp)).1
      ⟨7, "tBTCUSD"⟩ (by simp) rfl
  · exact ((claim_C7 svcSnap 8).1 ⟨[⟨7, "tBTCUSD"⟩]⟩ rfl (by simp)).2
      (fun o hm => by rw [List.mem_singleton.mp hm]; decide)

/-- Splitting at a separator that follows a slash-free prefix. -/
theorem segSplit_append (a b acc : List Char) (ha : '/' ∉ a) :
    segSplit (a ++ '/' :: b) acc = (acc.reverse ++ a) :: segSplit b [] := by
  induction a generalizing acc with
  | nil => simp [segSplit]
  | cons c a ih =>
    have hc : ¬ c = '/' := fun h => ha (by simp [h])
    have ha2 : '/' ∉ a := fun h => ha (List.mem_cons_of_mem _ h)
    simp only [List.cons_append, segSplit]
    rw [if_neg hc]
    show segSplit (a ++ '/' :: b) (c :: acc) = (acc.reverse ++ c :: a) :: segSplit b []
    rw [ih _ ha2]
    simp

/-- Splitting a slash-free suffix. -/
theorem segSplit_noSlash (b acc : List Char) (hb : '/' ∉ b) :
    segSplit b acc = [acc.reverse ++ b] := by
  induction b generalizing acc with
  | nil => simp [segSplit]
  | cons c b ih =>
    have hc : ¬ c = '/' := fun h => hb (by simp [h])
    have hb2 : '/' ∉ b := fun h => hb (List.mem_cons_of_mem _ h)
    simp only [segSplit]
    rw [if_neg hc, ih _ hb2]
    simp

/-- The cleaning pass keeps an ordinary segment (non-empty, not `.`,
not `..`) on the stack. -/
theorem cleanSegs_keep (rooted : Bool) (s : List Char) (rest stack : List (List Char))
    (h0 : s ≠ []) (h1 : s ≠ ['.']) (h2 : s ≠ ['.', '.']) :
    cleanSegs rooted (s :: rest) stack = cleanSegs rooted rest (s :: stack) := by
  simp only [cleanSegs]
  rw [if_neg (not_or.mpr ⟨h0, h1⟩), if_neg h2]

/-- `Clean` on a relative path whose cleaning produces a non-empty body is
the joined cleaned segments. -/
theorem goPathClean_cons (c : Char) (cs : List Char) (hc : ¬ c = '/')
    (hb : ¬ joinSegs (cleanSegs false (segSplit (c :: cs) []) []) = []) :
    goPathClean ⟨c :: cs⟩ = ⟨joinSegs (cleanSegs false (segSplit (c :: cs) []) [])⟩ := by
  simp only [goPathClean]
  simp [hc, hb]

/-- `path.Join("orders", sym)` for a plain non-empty symbol (no slashes, not
a dot segment) is `orders/` followed by the symbol. -/
theorem goPathJoin_orders (sym : String) (h0 : sym ≠ "") (h1 : sym ≠ ".")
    (h2 : sym ≠ "..") (h3 : '/' ∉ sym.data) :
    goPathJoin ["orders", sym] = "orders" ++ "/" ++ sym := by
  have hd0 : sym.data ≠ [] := fun h => h0 (str_ext h)
  have hd1 : sym.data ≠ ['.'] := fun h => h1 (str_ext h)
  have hd2 : sym.data ≠ ['.', '.'] := fun h => h2 (str_ext h)
  have hsf : segSplit ('o' :: 'r' :: 'd' :: 'e' :: 'r' :: 's' :: '/' :: sym.data) []
      = [['o', 'r', 'd', 'e', 'r', 's'], sym.data] := by
    have h := segSplit_append ['o', 'r', 'd', 'e', 'r', 's'] sym.data [] (by decide)
    rw [segSplit_noSlash _ _ h3] at h
    simpa using h
  have hcl : cleanSegs false [['o', 'r', 'd', 'e', 'r', 's'], sym.data] []
      = [['o', 'r', 'd', 'e', 'r', 's'], sym.data] := by
    rw [cleanSegs_keep _ _ _ _ (by decide) (by decide) (by decide),
        cleanSegs_keep _ _ _ _ hd0 hd1 hd2]
    rfl
  have hbody : joinSegs (cleanSegs false (segSplit ('o' :: 'r' :: 'd' :: 'e' :: 'r' :: 's' :: '/' :: sym.data) []) [])
      = 'o' :: 'r' :: 'd' :: 'e' :: 'r' :: 's' :: '/' :: sym.data := by
    rw [hsf, hcl]
    rfl
  have hcln : goPathClean ⟨'o' :: 'r' :: 'd' :: 'e' :: 'r' :: 's' :: '/' :: sym.data⟩
      = ⟨'o' :: 'r' :: 'd' :: 'e' :: 'r' :: 's' :: '/' :: sym.data⟩ := by
    rw [goPathClean_cons _ _ (by decide) (by rw [hbody]; simp), hbody]
  calc goPathJoin ["orders", sym]
      = goPathClean ⟨'o' :: 'r' :: 'd' :: 'e' :: 'r' :: 's' :: '/' :: sym.data⟩ := rfl
    _ = ⟨'o' :: 'r' :: 'd' :: 'e' :: 'r' :: 's' :: '/' :: sym.data⟩ := hcln
    _ = "orders" ++ "/" ++ sym := rfl

/-- `path.Join("orders", sym, "hist")` for a plain non-empty symbol. -/
theorem goPathJoin_orders_hist (sym : String) (h0 : sym ≠ "") (h1 : sym ≠ ".")
    (h2 : sym ≠ "..") (h3 : '/' ∉ sym.data) :
    goPathJoin ["orders", sym, "hist"] = "orders" ++ "/" ++ sym ++ "/hist" := by
  have hd0 : sym.data ≠ [] := fun h => h0 (str_ext h)
  have hd1 : sym.data ≠ ['.'] := fun h => h1 (str_ext h)
  have hd2 : sym.data ≠ ['.', '.'] := fun h => h2 (str_ext h)
  have hsf : segSplit ('o' :: 'r' :: 'd' :: 'e' :: 'r' :: 's' :: '/' :: (sym.data ++ '/' :: ['h', 'i', 's', 't'])) []
      = [['o', 'r', 'd', 'e', 'r', 's'], sym.data, ['h', 'i', 's', 't']] := by
    have h := segSplit_append ['o', 'r', 'd', 'e', 'r', 's'] (sym.data ++ '/' :: ['h', 'i', 's', 't']) [] (by decide)
    rw [segSplit_append _ _ _ h3] at h
    rw [segSplit_noSlash ['h', 'i', 's', 't'] _ (by decide)] at h
    simpa using h
  have hcl : cleanSegs false [['o', 'r', 'd', 'e', 'r', 's'], sym.data, ['h', 'i', 's', 't']] []
      = [['o', 'r', 'd', 'e', 'r', 's'], sym.data, ['h', 'i', 's', 't']] := by
    rw [cleanSegs_keep _ _ _ _ (by decide) (by decide) (by decide),
        cleanSegs_keep _ _ _ _ hd0 hd1 hd2,
        cleanSegs_keep _ _ _ _ (by decide) (by decide) (by decide)]
    rfl
  have hbody : joinSegs (cleanSegs false (segSplit ('o' :: 'r' :: 'd' :: 'e' :: 'r' :: 's' :: '/' :: (sym.data ++ '/' :: ['h', 'i', 's', 't'])) []) [])
      = 'o' :: 'r' :: 'd' :: 'e' :: 'r' :: 's' :: '/' :: (sym.data ++ '/' :: ['h', 'i', 's', 't']) := by
    rw [hsf, hcl]
    rfl
  have hcln : goPathClean ⟨'o' :: 'r' :: 'd' :: 'e' :: 'r' :: 's' :: '/' :: (sym.data ++ '/' :: ['h', 'i', 's', 't'])⟩
      = ⟨'o' :: 'r' :: 'd' :: 'e' :: 'r' :: 's' :: '/' :: (sym.data ++ '/' :: ['h', 'i', 's', 't'])⟩ := by
    rw [goPathClean_cons _ _ (by decide) (by rw [hbody]; simp), hbody]
  calc goPathJoin ["orders", sym, "hist"]
      = goPathClean ⟨'o' :: 'r' :: 'd' :: 'e' :: 'r' :: 's' :: '/' :: (sym.data ++ '/' :: ['h', 'i', 's', 't'])⟩ := rfl
    _ = ⟨'o' :: 'r' :: 'd' :: 'e' :: 'r' :: 's' :: '/' :: (sym.data ++ '/' :: ['h', 'i', 's', 't'])⟩ := hcln
    _ = "orders" ++ "/" ++ sym ++ "/hist" := rfl

/-- C8 fails on the code for symbols that are themselves path
metacharacters: with symbol `..`, `path.Join("orders", "..")` cleans to `.`,
not `orders/..`. -/
theorem claim_C8_counterexample :
    goPathJoin ["orders", ".."] = "." ∧ ("." : String) ≠ "orders" ++ "/" ++ ".." := by
  exact ⟨rfl, by decide⟩

/-- C8 amended: the empty symbol collapses cleanly — `orders` (no trailing
separator) and `orders/hist` (no doubled separator) — and for every
non-empty symbol that is a plain segment (no `/`, not `.` or `..`) the paths
are `orders/{symbol}` and `orders/{symbol}/hist`. -/
theorem claim_C8 :
    goPathJoin ["orders", ""] = "orders"
    ∧ goPathJoin ["orders", "", "hist"] = "orders/hist"
    ∧ ∀ sym : String, sym ≠ "" → sym ≠ "." → sym ≠ ".." → '/' ∉ sym.data →
        goPathJoin ["orders", sym] = "orders" ++ "/" ++ sym
        ∧ goPathJoin ["orders", sym, "hist"] = "orders" ++ "/" ++ sym ++ "/hist" :=
  ⟨rfl, rfl, fun sym h0 h1 h2 h3 =>
    ⟨goPathJoin_orders sym h0 h1 h2 h3, goPathJoin_orders_hist sym h0 h1 h2 h3⟩⟩

/-- Witness for the amended C8 at the concrete symbol `tBTCUSD`. -/
theorem claim_C8_witness :
    goPathJoin ["orders", "tBTCUSD"] = "orders" ++ "/" ++ "tBTCUSD"
    ∧ goPathJoin ["orders", "tBTCUSD", "hist"] = "orders" ++ "/" ++ "tBTCUSD" ++ "/hist" :=
  claim_C8.2.2 "tBTCUSD" (by decide) (by decide) (by decide) (by decide)

/-- The active listing obeys the ok-xor-error discipline. -/
theorem okOrErr_getActive (s : OrderService) (symbol : String) :
    okOrErr (s.getActiveOrders symbol) := by
  unfold OrderService.getActiveOrders
  apply okOrErr_step; intro req
  apply okOrErr_step; intro raw
  exact okOrErr_snapshotDecode _

/-- The historical listing obeys the ok-xor-error discipline. -/
theorem okOrErr_getHistorical (s : OrderService) (symbol : String) :
    okOrErr (s.getHistoricalOrders symbol) := by
  unfold OrderService.getHistoricalOrders
  apply okOrErr_step; intro req
  apply okOrErr_step; intro raw
  exact okOrErr_snapshotDecode _

/-- The active by-ID lookup obeys the ok-xor-error discipline. -/
theorem okOrErr_byId (s : OrderService) (orderID : Int) :
    okOrErr (s.GetByOrderId orderID) := by
  unfold OrderService.GetByOrderId
  rcases s.All with ⟨_ | os, _ | e⟩
  · exact Or.inr ⟨Err.notFound, rfl⟩
  · exact Or.inr ⟨e, rfl⟩
  · show okOrErr (match os.snapshot.find? (fun o => o.id == orderID) with
      | some o => (some o, none)
      | none => (none, some Err.notFound))
    rcases hf : os.snapshot.find? (fun o => o.id == orderID) with _ | o
    · exact Or.inr ⟨Err.notFound, by rw [hf]⟩
    · exact Or.inl ⟨o, by rw [hf]⟩
  · exact Or.inr ⟨e, rfl⟩

/-- The historical by-ID lookup obeys the ok-xor-error discipline. -/
theorem okOrErr_byIdHist (s : OrderService) (orderID : Int) :
    okOrErr (s.GetHistoryByOrderId orderID) := by
  unfold OrderService.GetHistoryByOrderId
  rcases s.AllHistory with ⟨_ | os, _ | e⟩
  · exact Or.inr ⟨Err.notFound, rfl⟩
  · exact Or.inr ⟨e, rfl⟩
  · show okOrErr (match os.snapshot.find? (fun o => o.id == orderID) with
      | some o => (some o, none)
      | none => (none, some Err.notFound))
    rcases hf : os.snapshot.find? (fun o => o.id == orderID) with _ | o
    · exact Or.inr ⟨Err.notFound, by rw [hf]⟩
    · exact Or.inl ⟨o, by rw [hf]⟩
  · exact Or.inr ⟨e, rfl⟩

/-- The notification round trip obeys the ok-xor-error discipline. -/
theorem okOrErr_roundTrip (s : OrderService) (p body : String) :
    okOrErr (notificationRoundTrip s p body) := by
  unfold notificationRoundTrip
  apply okOrErr_step; intro req
  apply okOrErr_step; intro raw
  exact okOrErr_exceptToPair _


/-- The first-error/full-success contract of a notification write: failure
of request construction, transport, or decode returns exactly that error and
nothing later can alter it; full success returns exactly the decoded
notification with nil error. -/
def roundTripSpec (s : OrderService) (p body : String) (r : Option Notification × Option Err) : Prop :=
  (∀ e, s.newAuthenticatedRequestWithBytes Permission.write p body = .error e → r = (none, some e))
  ∧ ∀ req, s.newAuthenticatedRequestWithBytes Permission.write p body = .ok req →
      (∀ e, s.request req = .error e → r = (none, some e))
      ∧ ∀ raw, s.request req = .ok raw →
          (∀ e, s.newNotificationFromRaw raw = .error e → r = (none, some e))
          ∧ (∀ n, s.newNotificationFromRaw raw = .ok n → r = (some n, none))

/-- The notification round trip meets its first-error/full-success
contract. -/
theorem roundTripSpec_holds (s : OrderService) (p body : String) :
    roundTripSpec s p body (notificationRoundTrip s p body) := by
  refine ⟨?_, ?_⟩
  · intro e he
    simp only [notificationRoundTrip, step, he]
  · intro req hreq
    refine ⟨?_, ?_⟩
    · intro e he
      simp only [notificationRoundTrip, step, hreq, he]
    · intro raw hraw
      refine ⟨?_, ?_⟩
      · intro e he
        simp only [notificationRoundTrip, step, exceptToPair, hreq, hraw, he]
      · intro n hn
        simp only [notificationRoundTrip, step, exceptToPair, hreq, hraw, hn]

/-- The first-error/full-success contract of a snapshot listing: failure of
request construction, transport, or decode returns exactly that error; a
nil-snapshot decode with nil error yields the fresh empty snapshot; a
decoded snapshot is returned as-is with nil error. -/
def snapFetchSpec (s : OrderService) (p : String) (r : Option OrderSnapshot × Option Err) : Prop :=
  (∀ e, s.newAuthenticatedRequest Permission.read p = .error e → r = (none, some e))
  ∧ ∀ req, s.newAuthenticatedRequest Permission.read p = .ok req →
      (∀ e, s.request req = .error e → r = (none, some e))
      ∧ ∀ raw, s.request req = .ok raw →
          (∀ os e, s.newOrderSnapshotFromRaw raw = (os, some e) → r = (none, some e))
          ∧ (s.newOrderSnapshotFromRaw raw = (none, none) → r = (some ⟨[]⟩, none))
          ∧ (∀ os, s.newOrderSnapshotFromRaw raw = (some os, none) → r = (some os, none))

/-- `getActiveOrders` meets the snapshot-listing contract at its path. -/
theorem snapFetchSpec_getActive (s : OrderService) (symbol : String) :
    snapFetchSpec s (goPathJoin ["orders", symbol]) (s.getActiveOrders symbol) := by
  refine ⟨?_, ?_⟩
  · intro e he
    simp only [OrderService.getActiveOrders, step, he]
  · intro req hreq
    refine ⟨?_, ?_⟩
    · intro e he
      simp only [OrderService.getActiveOrders, step, hreq, he]
    · intro raw hraw
      refine ⟨?_, ?_, ?_⟩
      · intro os e hc
        rcases os with _ | os <;>
          simp only [OrderService.getActiveOrders, step, hreq, hraw, hc]
      · intro hc
        simp only [OrderService.getActiveOrders, step, hreq, hraw, hc]
      · intro os hc
        simp only [OrderService.getActiveOrders, step, hreq, hraw, hc]

/-- `getHistoricalOrders` meets the snapshot-listing contract at its path. -/
theorem snapFetchSpec_getHistorical (s : OrderService) (symbol : String) :
    snapFetchSpec s (goPathJoin ["orders", symbol, "hist"]) (s.getHistoricalOrders symbol) := by
  refine ⟨?_, ?_⟩
  · intro e he
    simp only [OrderService.getHistoricalOrders, step, he]
  · intro req hreq
    refine ⟨?_, ?_⟩
    · intro e he
      simp only [OrderService.getHistoricalOrders, step, hreq, he]
    · intro raw hraw
      refine ⟨?_, ?_, ?_⟩
      · intro os e hc
        rcases os with _ | os <;>
          simp only [OrderService.getHistoricalOrders, step, hreq, hraw, hc]
      · intro hc
        simp only [OrderService.getHistoricalOrders, step, hreq, hraw, hc]
      · intro os hc
        simp only [OrderService.getHistoricalOrders, step, hreq, hraw, hc]

/-- The first-error/full-success contract of a by-ID lookup relative to the
result of its snapshot fetch: a failed fetch propagates exactly the fetch
error; on a successful fetch the scan result decides between the unique
match and `Err.notFound`. -/
def byIdSpec (fetch : Option OrderSnapshot × Option Err) (orderID : Int) (r : Option Order × Option Err) : Prop :=
  (∀ os e, fetch = (os, some e) → r = (none, some e))
  ∧ ∀ snap, fetch = (some snap, none) →
      (∀ o, snap.snapshot.find? (fun x => x.id == orderID) = some o → r = (some o, none))
      ∧ (snap.snapshot.find? (fun x => x.id == orderID) = none → r = (none, some Err.notFound))

/-- `GetByOrderId` meets the by-ID contract over the active fetch. -/
theorem byIdSpec_holds (s : OrderService) (orderID : Int) :
    byIdSpec s.All orderID (s.GetByOrderId orderID) := by
  refine ⟨?_, ?_⟩
  · intro os e h
    rcases os with _ | os <;> simp only [OrderService.GetByOrderId, h]
  · intro snap h
    have hb := @byId_of_fetch s snap orderID h
    refine ⟨?_, ?_⟩
    · intro o hf
      rw [hb, hf]
    · intro hf
      rw [hb, hf]

/-- `GetHistoryByOrderId` meets the by-ID contract over the historical
fetch. -/
theorem byIdSpecHist_holds (s : OrderService) (orderID : Int) :
    byIdSpec s.AllHistory orderID (s.GetHistoryByOrderId orderID) := by
  refine ⟨?_, ?_⟩
  · intro os e h
    rcases os with _ | os <;> simp only [OrderService.GetHistoryByOrderId, h]
  · intro snap h
    have hb := @byIdHist_of_fetch s snap orderID h
    refine ⟨?_, ?_⟩
    · intro o hf
      rw [hb, hf]
    · intro hf
      rw [hb, hf]

/-- The first-error/full-success contract of the order-trades query. -/
def tradesSpec (s : OrderService) (p : String) (r : Option TradeExecutionUpdateSnapshot × Option Err) : Prop :=
  (∀ e, s.newAuthenticatedRequest Permission.read p = .error e → r = (none, some e))
  ∧ ∀ req, s.newAuthenticatedRequest Permission.read p = .ok req →
      (∀ e, s.request req = .error e → r = (none, some e))
      ∧ ∀ raw, s.request req = .ok raw →
          (∀ e, s.newTradeExecutionUpdateSnapshotFromRaw raw = .error e → r = (none, some e))
          ∧ (∀ t, s.newTradeExecutionUpdateSnapshotFromRaw raw = .ok t → r = (some t, none))

/-- `OrderTrades` meets the trades contract at its composite-key path. -/
theorem tradesSpec_holds (s : OrderService) (symbol : String) (orderID : Int) :
    tradesSpec s (goPathJoin ["order", symbol ++ ":" ++ toString orderID, "trades"]) (s.OrderTrades symbol orderID) := by
  refine ⟨?_, ?_⟩
  · intro e he
    simp only [OrderService.OrderTrades, step, he]
  · intro req hreq
    refine ⟨?_, ?_⟩
    · intro e he
      simp only [OrderService.OrderTrades, step, hreq, he]
    · intro raw hraw
      refine ⟨?_, ?_⟩
      · intro e he
        simp only [OrderService.OrderTrades, step, exceptToPair, hreq, hraw, he]
      · intro t ht
        simp only [OrderService.OrderTrades, step, exceptToPair, hreq, hraw, ht]

/-- The first-error/full-success contract of a submit-style write: a failed
serialization returns exactly that error before any request is built; a
successful serialization hands the bytes to the notification round trip. -/
def submitSpec (s : OrderService) (p : String) (ser : Except Err String) (r : Option Notification × Option Err) : Prop :=
  (∀ e, ser = .error e → r = (none, some e))
  ∧ ∀ b, ser = .ok b → roundTripSpec s p b r

/-- `SubmitOrder` meets the submit contract at `order/submit`. -/
theorem submitSpec_SubmitOrder (s : OrderService) (onr : OrderNewRequest) :
    submitSpec s (goPathJoin ["order", "submit"]) onr.toJSON (s.SubmitOrder onr) := by
  refine ⟨?_, ?_⟩
  · intro e he
    simp only [OrderService.SubmitOrder, step, he]
  · intro b hb
    have h : s.SubmitOrder onr = notificationRoundTrip s (goPathJoin ["order", "submit"]) b := by
      simp only [OrderService.SubmitOrder, notificationRoundTrip, step, hb]
    rw [h]
    exact roundTripSpec_holds s _ b

/-- `SubmitUpdateOrder` meets the submit contract at `order/update`. -/
theorem submitSpec_SubmitUpdateOrder (s : OrderService) (oup : OrderUpdateRequest) :
    submitSpec s (goPathJoin ["order", "update"]) oup.toJSON (s.SubmitUpdateOrder oup) := by
  refine ⟨?_, ?_⟩
  · intro e he
    simp only [OrderService.SubmitUpdateOrder, step, he]
  · intro b hb
    have h : s.SubmitUpdateOrder oup = notificationRoundTrip s (goPathJoin ["order", "update"]) b := by
      simp only [OrderService.SubmitUpdateOrder, notificationRoundTrip, step, hb]
    rw [h]
    exact roundTripSpec_holds s _ b

/-- The first-error contract of the cancel write, whose only success payload
is the bare nil error. -/
def cancelSpec (s : OrderService) (oc : OrderCancelRequest) (r : Option Err) : Prop :=
  (∀ e, oc.toJSON = .error e → r = some e)
  ∧ ∀ b, oc.toJSON = .ok b →
      (∀ e, s.newAuthenticatedRequestWithBytes Permission.write (goPathJoin ["order", "cancel"]) b = .error e → r = some e)
      ∧ ∀ req, s.newAuthenticatedRequestWithBytes Permission.write (goPathJoin ["order", "cancel"]) b = .ok req →
          (∀ e, s.request req = .error e → r = some e)
          ∧ (∀ raw, s.request req = .ok raw → r = none)

/-- `SubmitCancelOrder` meets the cancel contract. -/
theorem cancelSpec_holds (s : OrderService) (oc : OrderCancelRequest) :
    cancelSpec s oc (s.SubmitCancelOrder oc) := by
  refine ⟨?_, ?_⟩
  · intro e he
    simp only [OrderService.SubmitCancelOrder, he]
  · intro b hb
    refine ⟨?_, ?_⟩
    · intro e he
      simp only [OrderService.SubmitCancelOrder, hb, he]
    · intro req hreq
      refine ⟨?_, ?_⟩
      · intro e he
        simp only [OrderService.SubmitCancelOrder, hb, hreq, he]
      · intro raw hraw
        simp only [OrderService.SubmitCancelOrder, hb, hreq, hraw]

/-- C9: for every public operation of the order service, under every
collaborator behaviour and input, each point of failure (serialization,
request construction, transport, decode) makes the operation return exactly
that first error and stop — no later stage can alter it — and full success
returns exactly the decoded result; consequently the caller always receives
either a fully-populated result with nil error or a nil result with a
non-nil error, never a partially-filled pair. -/
theorem claim_C9 (s : OrderService) (symbol : String) (orderID : Int)
    (onr : OrderNewRequest) (oup : OrderUpdateRequest) (ocr : OrderCancelRequest)
    (args : CancelOrderMultiRequest) (ids : List Int) (ops : List (List Json)) :
    (okOrErr s.All ∧ okOrErr (s.GetBySymbol symbol) ∧ okOrErr (s.GetByOrderId orderID)
      ∧ okOrErr s.AllHistory ∧ okOrErr (s.GetHistoryBySymbol symbol)
      ∧ okOrErr (s.GetHistoryByOrderId orderID)
      ∧ okOrErr (s.OrderTrades symbol orderID)
      ∧ okOrErr (s.SubmitOrder onr) ∧ okOrErr (s.SubmitUpdateOrder oup)
      ∧ okOrErr (s.CancelOrderMulti args)
      ∧ okOrErr (s.CancelOrdersMultiOp ids) ∧ okOrErr (s.CancelOrderMultiOp orderID)
      ∧ okOrErr (s.OrderNewMultiOp onr) ∧ okOrErr (s.OrderUpdateMultiOp oup)
      ∧ okOrErr (s.OrderMultiOp ops))
    ∧ snapFetchSpec s (goPathJoin ["orders", ""]) s.All
    ∧ snapFetchSpec s (goPathJoin ["orders", symbol]) (s.GetBySymbol symbol)
    ∧ snapFetchSpec s (goPathJoin ["orders", "", "hist"]) s.AllHistory
    ∧ snapFetchSpec s (goPathJoin ["orders", symbol, "hist"]) (s.GetHistoryBySymbol symbol)
    ∧ byIdSpec s.All orderID (s.GetByOrderId orderID)
    ∧ byIdSpec s.AllHistory orderID (s.GetHistoryByOrderId orderID)
    ∧ tradesSpec s (goPathJoin ["order", symbol ++ ":" ++ toString orderID, "trades"]) (s.OrderTrades symbol orderID)
    ∧ submitSpec s (goPathJoin ["order", "submit"]) onr.toJSON (s.SubmitOrder onr)
    ∧ submitSpec s (goPathJoin ["order", "update"]) oup.toJSON (s.SubmitUpdateOrder oup)
    ∧ cancelSpec s ocr (s.SubmitCancelOrder ocr)
    ∧ roundTripSpec s (goPathJoin ["order", "cancel", "multi"]) (renderJson (cancelOrderMultiRequestJson args)) (s.CancelOrderMulti args)
    ∧ roundTripSpec s (goPathJoin ["order", "multi"]) (cancelOrdersMultiOpBody ids) (s.CancelOrdersMultiOp ids)
    ∧ roundTripSpec s (goPathJoin ["order", "multi"]) (cancelOrderMultiOpBody orderID) (s.CancelOrderMultiOp orderID)
    ∧ roundTripSpec s (goPathJoin ["order", "multi"]) (renderJson (orderMultiOpsRequestJson [[Json.str "on", onr.enrichedPayload]])) (s.OrderNewMultiOp onr)
    ∧ roundTripSpec s (goPathJoin ["order", "multi"]) (renderJson (orderMultiOpsRequestJson [[Json.str "ou", oup.enrichedPayload]])) (s.OrderUpdateMultiOp oup)
    ∧ roundTripSpec s (goPathJoin ["order", "multi"]) (renderJson (orderMultiOpsRequestJson ops)) (s.OrderMultiOp ops) := by
  refine ⟨⟨okOrErr_getActive s "", okOrErr_getActive s symbol, okOrErr_byId s orderID,
      okOrErr_getHistorical s "", okOrErr_getHistorical s symbol, okOrErr_byIdHist s orderID,
      ?_, ?_, ?_, okOrErr_roundTrip s _ _, okOrErr_roundTrip s _ _, okOrErr_roundTrip s _ _,
      okOrErr_roundTrip s _ _, okOrErr_roundTrip s _ _, okOrErr_roundTrip s _ _⟩,
    snapFetchSpec_getActive s "", snapFetchSpec_getActive s symbol,
    snapFetchSpec_getHistorical s "", snapFetchSpec_getHistorical s symbol,
    byIdSpec_holds s orderID, byIdSpecHist_holds s orderID,
    tradesSpec_holds s symbol orderID,
    submitSpec_SubmitOrder s onr, submitSpec_SubmitUpdateOrder s oup,
    cancelSpec_holds s ocr,
    roundTripSpec_holds s _ _, roundTripSpec_holds s _ _, roundTripSpec_holds s _ _,
    roundTripSpec_holds s _ _, roundTripSpec_holds s _ _, roundTripSpec_holds s _ _⟩
  · unfold OrderService.OrderTrades
    apply okOrErr_step; intro req
    apply okOrErr_step; intro raw
    exact okOrErr_exceptToPair _
  · unfold OrderService.SubmitOrder
    apply okOrErr_step; intro bytes
    apply okOrErr_step; intro req
    apply okOrErr_step; intro raw
    exact okOrErr_exceptToPair _
  · unfold OrderService.SubmitUpdateOrder
    apply okOrErr_step; intro bytes
    apply okOrErr_step; intro req
    apply okOrErr_step; intro raw
    exact okOrErr_exceptToPair _

/-- An order request whose wire serialization fails. -/
def badNew : OrderNewRequest := ⟨.error (Err.other ("boom")), Json.null⟩

/-- A collaborator set whose executor fails with a transport error. -/
def svcFailReq : OrderService :=
  ⟨fun _ p => .ok ⟨p, ""⟩,
   fun _ p b => .ok ⟨p, b⟩,
   fun _ => .error (Err.other ("net")),
   fun _ => (none, none),
   fun r => .ok ⟨r⟩,
   fun r => .ok ⟨r⟩⟩

/-- Witness for C9: a failing serialization is surfaced as the sole error, a
transport failure is propagated verbatim past a successful request build,
and a fully successful cycle returns the decoded notification. -/
theorem claim_C9_witness :
    OrderService.SubmitOrder (svcOf [] (none, none)) badNew = (none, some (Err.other ("boom")))
    ∧ OrderService.CancelOrderMulti svcFailReq ⟨[], [], [], 1⟩ = (none, some (Err.other ("net")))
    ∧ OrderService.OrderMultiOp (svcOf [] (none, none)) [] = (some ⟨[]⟩, none) := by
  obtain ⟨-, -, -, -, -, -, -, -, hsub, -, -, -, -, -, -, -, hom⟩ :=
    claim_C9 (svcOf [] (none, none)) "" 0 badNew ⟨.ok (""), Json.null⟩ ⟨.ok ("")⟩
      ⟨[], [], [], 1⟩ [] []
  obtain ⟨-, -, -, -, -, -, -, -, -, -, -, hcm, -, -, -, -, -⟩ :=
    claim_C9 svcFailReq "" 0 ⟨.ok (""), Json.null⟩ ⟨.ok (""), Json.null⟩ ⟨.ok ("")⟩
      ⟨[], [], [], 1⟩ [] []
  exact ⟨hsub.1 (Err.other ("boom")) rfl,
    (hcm.2 ⟨"order/cancel/multi", "\x7b\"all\":1\x7d"⟩ rfl).1 (Err.other ("net")) rfl,
    ((hom.2 ⟨"order/multi", "\x7b\"ops\":[]\x7d"⟩ rfl).2 [] rfl).2 ⟨[]⟩ rfl⟩
